import Mathlib

/-!
Shallow embedding of the CHIP-8 emulator core (src/chip8.rs) together with
one driver cycle (fetch + decode + execute, from the main loop in
src/main.rs), and theorems settling the specification claims about it.

Modelling conventions:
* Rust `u8` / `u16` / `usize` values are `Nat`; arithmetic that the source
  performs with `overflowing_add` / shifts is written with the matching
  `%`, `&&&`, `|||`, `^^^`, `>>>`, `<<<` operations on `Nat`.
* Arrays (`memory`, `registers`, `stack`, `display`, `keys_pressed`) are
  total functions from indices; a Rust indexing operation that would go out
  of bounds panics, which is modelled by the enclosing operation returning
  `Option.none` (the panic aborts the call, no state is returned).
* `rand::random()` in the `0xC` opcode is modelled by an extra `rnd`
  argument threaded into `execute`.
* `Result<Actions, std::io::Error>` is modelled by `ExecResult`; the error
  payload itself carries no machine-relevant data.
-/

namespace CHIP8

/-- Instruction fields, as produced by `decode` (struct `Instruction` in
src/chip8.rs). -/
structure Instruction where
  instruction : Nat
  x : Nat
  y : Nat
  n : Nat
  nn : Nat
  nnn : Nat

/-- `decode` from src/chip8.rs: fixed bit-slicing of a 16-bit opcode. -/
def decode (opcode : Nat) : Instruction :=
  { instruction := (opcode &&& 0xF000) >>> 12
    x := (opcode &&& 0x0F00) >>> 8
    y := (opcode &&& 0x00F0) >>> 4
    n := opcode &&& 0x000F
    nn := opcode &&& 0x00FF
    nnn := opcode &&& 0x0FFF }

/-- The two behavior variants (enum `Mode` in src/chip8.rs): `Chip8` is the
legacy variant, `Chip48` the modern one. -/
inductive Mode where
  | Chip8
  | Chip48
deriving DecidableEq

/-- enum `Actions` from src/chip8.rs. -/
inductive Actions where
  | None
  | Redraw
deriving DecidableEq

/-- Models the Rust return type `Result<Actions, std::io::Error>` of
`Chip8::execute`: `ok` is `Ok(..)`, `error` is `Err(..)` (the payload is
irrelevant to the machine semantics). -/
inductive ExecResult where
  | ok (a : Actions)
  | error
deriving DecidableEq

/-- struct `KeyboardState` from src/chip8.rs (the `[bool; 16]` array is a
total function; indices ≥ 16 are never stored by the input collaborator). -/
structure KeyboardState where
  keys_pressed : Nat → Bool
  pressed_key : Option Nat

/-- struct `Chip8` from src/chip8.rs.  `stack_pointer` is the Rust `i8`
(signed, -1 means empty). -/
structure Chip8 where
  memory : Nat → Nat
  registers : Nat → Nat
  index_register : Nat
  program_counter : Nat
  stack : Nat → Nat
  stack_pointer : Int
  delay_timer : Nat
  sound_timer : Nat
  display : Nat → Nat → Nat
  mode : Mode

/-- Pointwise array update. -/
def upd (f : Nat → Nat) (i v : Nat) : Nat → Nat :=
  fun j => if j = i then v else f j

/-- Pointwise update of the two-dimensional display. -/
def upd2 (d : Nat → Nat → Nat) (r c v : Nat) : Nat → Nat → Nat :=
  fun r2 c2 => if r2 = r ∧ c2 = c then v else d r2 c2

def FONTSET_START_ADDRESS : Nat := 0x50

def PROGRAM_START_ADDRESS : Nat := 0x200

/-- Modelled from the spec: the module file `src/chip8/fontset.rs` (constant
`FONTSET`, referenced by `mod fontset;` in src/chip8.rs) is not part of the
provided sources.  Spec §3 describes it as "a fixed 80-byte built-in glyph
set (16 hexadecimal digit sprites, 5 bytes each)" written at 0x050–0x09F;
these are the standard CHIP-8 hexadecimal digit glyphs. -/
def FONTSET : List Nat :=
  [0xF0, 0x90, 0x90, 0x90, 0xF0,
   0x20, 0x60, 0x20, 0x20, 0x70,
   0xF0, 0x10, 0xF0, 0x80, 0xF0,
   0xF0, 0x10, 0xF0, 0x10, 0xF0,
   0x90, 0x90, 0xF0, 0x10, 0x10,
   0xF0, 0x80, 0xF0, 0x10, 0xF0,
   0xF0, 0x80, 0xF0, 0x90, 0xF0,
   0xF0, 0x10, 0x20, 0x40, 0x40,
   0xF0, 0x90, 0xF0, 0x90, 0xF0,
   0xF0, 0x90, 0xF0, 0x10, 0xF0,
   0xF0, 0x90, 0xF0, 0x90, 0x90,
   0xE0, 0x90, 0xE0, 0x90, 0xE0,
   0xF0, 0x80, 0x80, 0x80, 0xF0,
   0xE0, 0x90, 0x90, 0x90, 0xE0,
   0xF0, 0x80, 0xF0, 0x80, 0xF0,
   0xF0, 0x80, 0xF0, 0x80, 0x80]

/-- Write a list of bytes into memory at consecutive addresses starting at
`base + i` (the `iter().enumerate()` loops in `Chip8::new` / `Chip8::load`). -/
def writeBytes (mem : Nat → Nat) (base : Nat) : List Nat → Nat → (Nat → Nat)
  | [], _ => mem
  | b :: rest, i => writeBytes (upd mem (base + i) b) base rest (i + 1)

/-- `Chip8::new`. -/
def Chip8.new (mode : Mode) : Chip8 :=
  { memory := writeBytes (fun _ => 0) FONTSET_START_ADDRESS FONTSET 0
    registers := fun _ => 0
    index_register := 0
    program_counter := PROGRAM_START_ADDRESS
    stack := fun _ => 0
    stack_pointer := -1
    delay_timer := 0
    sound_timer := 0
    display := fun _ _ => 0
    mode := mode }

/-- `Chip8::load`. -/
def Chip8.load (s : Chip8) (program : List Nat) : Chip8 :=
  { s with memory := writeBytes s.memory PROGRAM_START_ADDRESS program 0 }

/-- `Chip8::fetch`: reads `memory[pc]` and `memory[pc + 1]` (panics — `none`
— when `pc + 1` is outside the 4096-byte array) and advances the program
counter by 2. -/
def Chip8.fetch (s : Chip8) : Option (Nat × Chip8) :=
  if s.program_counter + 1 ≤ 4095 then
    some ((s.memory s.program_counter) <<< 8 ||| s.memory (s.program_counter + 1),
      { s with program_counter := s.program_counter + 2 })
  else
    Option.none

/-- Inner column loop of the `0xD` sprite draw: pixels `i, i+1, ...` of one
sprite row (`rem` iterations remain, the full loop is `i = 0`, `rem = 8`),
with the `break` on `x0 + i > 63`.  Returns the display and the collision
flag accumulator. -/
def drawCols (row x0 byte : Nat) :
    Nat → Nat → (Nat → Nat → Nat) → Nat → ((Nat → Nat → Nat) × Nat)
  | _, 0, d, vf => (d, vf)
  | i, rem + 1, d, vf =>
    if x0 + i > 63 then (d, vf)
    else
      if (byte >>> (7 - i)) &&& 1 = 1 then
        drawCols row x0 byte (i + 1) rem
          (upd2 d row (x0 + i) (d row (x0 + i) ^^^ 1))
          (if d row (x0 + i) = 1 then 1 else vf)
      else
        drawCols row x0 byte (i + 1) rem d vf

/-- Outer row loop of the `0xD` sprite draw: sprite rows `j, j+1, ...`
(`rem` iterations remain, the full loop is `j = 0`, `rem = n`), with the
`break` on `y0 + j > 31`. -/
def drawRows (mem : Nat → Nat) (idx x0 y0 : Nat) :
    Nat → Nat → (Nat → Nat → Nat) → Nat → ((Nat → Nat → Nat) × Nat)
  | _, 0, d, vf => (d, vf)
  | j, rem + 1, d, vf =>
    if y0 + j > 31 then (d, vf)
    else
      let p := drawCols (y0 + j) x0 (mem (idx + j)) 0 8 d vf
      drawRows mem idx x0 y0 (j + 1) rem p.1 p.2

/-- The `for i in 0..=x` store loop of `0xF/0x55`: `memory[I + i] := V i`. -/
def storeRegs (mem regs : Nat → Nat) (base : Nat) : Nat → (Nat → Nat)
  | 0 => upd mem base (regs 0)
  | i + 1 => upd (storeRegs mem regs base i) (base + (i + 1)) (regs (i + 1))

/-- The `for i in 0..=x` load loop of `0xF/0x65`: `V i := memory[I + i]`. -/
def loadRegs (regs mem : Nat → Nat) (base : Nat) : Nat → (Nat → Nat)
  | 0 => upd regs 0 (mem base)
  | i + 1 => upd (loadRegs regs mem base i) (i + 1) (mem (base + (i + 1)))

/-- `Chip8::execute` from src/chip8.rs.  Every Rust array indexing that can
go out of bounds (the stack push of `0x2`, the popped slot of `0x00EE`, the
sprite slice of `0xD`, the key lookup of `0xE` when `Vx ≥ 16`, the `pc -= 2`
underflow of `0xF/0x0A`, the memory writes/reads of `0xF/0x33`, `0xF/0x55`,
`0xF/0x65`, and `i8`/`u16` overflow in debug builds) panics; a panic is
modelled as `Option.none`.  `rnd` models the byte drawn from
`rand::random()` in the `0xC` opcode. -/
def Chip8.execute (s : Chip8) (op : Instruction) (kb : KeyboardState) (rnd : Nat) :
    Option (ExecResult × Chip8) :=
  match op.instruction with
  | 0x00 =>
    match op.nn with
    | 0xE0 => some (ExecResult.ok Actions.Redraw, { s with display := fun _ _ => 0 })
    | 0xEE =>
      if 0 ≤ s.stack_pointer then
        if s.stack_pointer ≤ 15 then
          some (ExecResult.ok Actions.None,
            { s with program_counter := s.stack s.stack_pointer.toNat
                     stack_pointer := s.stack_pointer - 1 })
        else Option.none
      else some (ExecResult.ok Actions.None, s)
    | _ => some (ExecResult.ok Actions.None, s)
  | 0x01 => some (ExecResult.ok Actions.None, { s with program_counter := op.nnn })
  | 0x02 =>
    if s.stack_pointer = 127 then Option.none
    else
      if 0 ≤ s.stack_pointer + 1 ∧ s.stack_pointer + 1 ≤ 15 then
        some (ExecResult.ok Actions.None,
          { s with stack_pointer := s.stack_pointer + 1
                   stack := upd s.stack (s.stack_pointer + 1).toNat s.program_counter
                   program_counter := op.nnn })
      else Option.none
  | 0x03 =>
    if s.registers op.x = op.nn then
      some (ExecResult.ok Actions.None, { s with program_counter := s.program_counter + 2 })
    else some (ExecResult.ok Actions.None, s)
  | 0x04 =>
    if s.registers op.x ≠ op.nn then
      some (ExecResult.ok Actions.None, { s with program_counter := s.program_counter + 2 })
    else some (ExecResult.ok Actions.None, s)
  | 0x05 =>
    if s.registers op.x = s.registers op.y then
      some (ExecResult.ok Actions.None, { s with program_counter := s.program_counter + 2 })
    else some (ExecResult.ok Actions.None, s)
  | 0x06 => some (ExecResult.ok Actions.None, { s with registers := upd s.registers op.x op.nn })
  | 0x07 =>
    some (ExecResult.ok Actions.None,
      { s with registers := upd s.registers op.x ((s.registers op.x + op.nn) % 256) })
  | 0x08 =>
    match op.n with
    | 0x00 =>
      some (ExecResult.ok Actions.None,
        { s with registers := upd s.registers op.x (s.registers op.y) })
    | 0x01 =>
      let regs1 := upd s.registers op.x (s.registers op.x ||| s.registers op.y)
      match s.mode with
      | Mode.Chip8 => some (ExecResult.ok Actions.None, { s with registers := upd regs1 0xF 0 })
      | Mode.Chip48 => some (ExecResult.ok Actions.None, { s with registers := regs1 })
    | 0x02 =>
      let regs1 := upd s.registers op.x (s.registers op.x &&& s.registers op.y)
      match s.mode with
      | Mode.Chip8 => some (ExecResult.ok Actions.None, { s with registers := upd regs1 0xF 0 })
      | Mode.Chip48 => some (ExecResult.ok Actions.None, { s with registers := regs1 })
    | 0x03 =>
      let regs1 := upd s.registers op.x (s.registers op.x ^^^ s.registers op.y)
      match s.mode with
      | Mode.Chip8 => some (ExecResult.ok Actions.None, { s with registers := upd regs1 0xF 0 })
      | Mode.Chip48 => some (ExecResult.ok Actions.None, { s with registers := regs1 })
    | 0x04 =>
      let regs1 := upd s.registers op.x ((s.registers op.x + s.registers op.y) % 256)
      let flag := if s.registers op.x + s.registers op.y > 255 then 1 else 0
      some (ExecResult.ok Actions.None, { s with registers := upd regs1 0xF flag })
    | 0x05 =>
      let regs1 := upd s.registers op.x ((s.registers op.x + 256 - s.registers op.y) % 256)
      let flag := if s.registers op.x < s.registers op.y then 0 else 1
      some (ExecResult.ok Actions.None, { s with registers := upd regs1 0xF flag })
    | 0x06 =>
      let regs1 :=
        match s.mode with
        | Mode.Chip8 => upd s.registers op.x (s.registers op.y)
        | Mode.Chip48 => s.registers
      let carry := regs1 op.x &&& 1
      let regs2 := upd regs1 op.x (regs1 op.x >>> 1)
      some (ExecResult.ok Actions.None, { s with registers := upd regs2 0xF carry })
    | 0x07 =>
      let regs1 := upd s.registers op.x ((s.registers op.y + 256 - s.registers op.x) % 256)
      let flag := if s.registers op.y < s.registers op.x then 0 else 1
      some (ExecResult.ok Actions.None, { s with registers := upd regs1 0xF flag })
    | 0x0E =>
      let regs1 :=
        match s.mode with
        | Mode.Chip8 => upd s.registers op.x (s.registers op.y)
        | Mode.Chip48 => s.registers
      let carry := regs1 op.x >>> 7
      let regs2 := upd regs1 op.x ((regs1 op.x <<< 1) % 256)
      some (ExecResult.ok Actions.None, { s with registers := upd regs2 0xF carry })
    | _ => some (ExecResult.ok Actions.None, s)
  | 0x09 =>
    if s.registers op.x ≠ s.registers op.y then
      some (ExecResult.ok Actions.None, { s with program_counter := s.program_counter + 2 })
    else some (ExecResult.ok Actions.None, s)
  | 0x0A => some (ExecResult.ok Actions.None, { s with index_register := op.nnn })
  | 0x0B =>
    match s.mode with
    | Mode.Chip8 =>
      some (ExecResult.ok Actions.None, { s with program_counter := op.nnn + s.registers 0 })
    | Mode.Chip48 =>
      some (ExecResult.ok Actions.None, { s with program_counter := op.nnn + s.registers op.x })
  | 0x0C =>
    some (ExecResult.ok Actions.None,
      { s with registers := upd s.registers op.x ((rnd % 256) &&& op.nn) })
  | 0x0D =>
    let x := s.registers op.x &&& 63
    let y := s.registers op.y &&& 31
    if s.index_register + op.n ≤ 4096 then
      let p := drawRows s.memory s.index_register x y 0 op.n s.display 0
      some (ExecResult.ok Actions.Redraw,
        { s with display := p.1, registers := upd s.registers 0xF p.2 })
    else Option.none
  | 0x0E =>
    match op.nn with
    | 0x9E =>
      if s.registers op.x ≤ 15 then
        if kb.keys_pressed (s.registers op.x) then
          some (ExecResult.ok Actions.None, { s with program_counter := s.program_counter + 2 })
        else some (ExecResult.ok Actions.None, s)
      else Option.none
    | 0xA1 =>
      if s.registers op.x ≤ 15 then
        if kb.keys_pressed (s.registers op.x) then
          some (ExecResult.ok Actions.None, s)
        else
          some (ExecResult.ok Actions.None, { s with program_counter := s.program_counter + 2 })
      else Option.none
    | _ => some (ExecResult.ok Actions.None, s)
  | 0x0F =>
    match op.nn with
    | 0x07 =>
      some (ExecResult.ok Actions.None, { s with registers := upd s.registers op.x s.delay_timer })
    | 0x0A =>
      match kb.pressed_key with
      | some key =>
        some (ExecResult.ok Actions.None, { s with registers := upd s.registers op.x key })
      | Option.none =>
        if 2 ≤ s.program_counter then
          some (ExecResult.ok Actions.None,
            { s with program_counter := s.program_counter - 2 })
        else Option.none
    | 0x15 =>
      some (ExecResult.ok Actions.None, { s with delay_timer := s.registers op.x })
    | 0x18 =>
      some (ExecResult.ok Actions.None, { s with sound_timer := s.registers op.x })
    | 0x1E =>
      if s.index_register + s.registers op.x ≤ 65535 then
        some (ExecResult.ok Actions.None,
          { s with index_register := s.index_register + s.registers op.x })
      else Option.none
    | 0x29 =>
      some (ExecResult.ok Actions.None,
        { s with index_register := FONTSET_START_ADDRESS + s.registers op.x * 5 })
    | 0x33 =>
      if s.index_register + 2 ≤ 4095 then
        let mem1 := upd s.memory s.index_register (s.registers op.x / 100)
        let mem2 := upd mem1 (s.index_register + 1) ((s.registers op.x / 10) % 10)
        let mem3 := upd mem2 (s.index_register + 2) (s.registers op.x % 10)
        some (ExecResult.ok Actions.None, { s with memory := mem3 })
      else Option.none
    | 0x55 =>
      if s.index_register + op.x ≤ 4095 then
        match s.mode with
        | Mode.Chip8 =>
          some (ExecResult.ok Actions.None,
            { s with memory := storeRegs s.memory s.registers s.index_register op.x
                     index_register := s.index_register + op.x + 1 })
        | Mode.Chip48 =>
          some (ExecResult.ok Actions.None,
            { s with memory := storeRegs s.memory s.registers s.index_register op.x })
      else Option.none
    | 0x65 =>
      if s.index_register + op.x ≤ 4095 then
        match s.mode with
        | Mode.Chip8 =>
          some (ExecResult.ok Actions.None,
            { s with registers := loadRegs s.registers s.memory s.index_register op.x
                     index_register := s.index_register + op.x + 1 })
        | Mode.Chip48 =>
          some (ExecResult.ok Actions.None,
            { s with registers := loadRegs s.registers s.memory s.index_register op.x })
      else Option.none
    | _ => some (ExecResult.ok Actions.None, s)
  | _ => some (ExecResult.ok Actions.None, s)

/-- One driver cycle (loop body of `main` in src/main.rs): fetch, decode,
execute with the current keyboard snapshot. -/
def Chip8.cycle (s : Chip8) (kb : KeyboardState) (rnd : Nat) : Option (ExecResult × Chip8) :=
  match s.fetch with
  | Option.none => Option.none
  | some fp => fp.2.execute (decode fp.1) kb rnd

/-- Program counter after one driver cycle (projection used to state
facts about concrete runs). -/
def Chip8.pcAfterCycle (s : Chip8) (kb : KeyboardState) (rnd : Nat) : Option Nat :=
  match s.cycle kb rnd with
  | Option.none => Option.none
  | some p => some p.2.program_counter

/-- A keyboard snapshot with no keys held and no pressed key. -/
def idleKB : KeyboardState :=
  { keys_pressed := fun _ => false, pressed_key := Option.none }

theorem upd_self (f : Nat → Nat) (i v : Nat) : upd f i v i = v := by
  simp [upd]

theorem upd_ne (f : Nat → Nat) (i v j : Nat) (h : j ≠ i) : upd f i v j = f j := by
  simp [upd, h]

/-- Claim C10: on every normally terminating execution, `execute` returns an
`Ok` value (`Redraw` or `None`); the error branch of its `Result` return
type is never produced by any opcode path. -/
theorem execute_no_error_branch (s : Chip8) (op : Instruction) (kb : KeyboardState)
    (rnd : Nat) (r : ExecResult) (s' : Chip8)
    (h : s.execute op kb rnd = some (r, s')) : ∃ a, r = ExecResult.ok a := by
  unfold Chip8.execute at h
  repeat' split at h
  all_goals simp_all
  all_goals exact ⟨_, h.1.symm⟩

/-- Witness for C10 at a concrete input: `0x6005` on a fresh machine. -/
theorem execute_no_error_branch_witness :
    ∃ a, ExecResult.ok Actions.None = ExecResult.ok a :=
  execute_no_error_branch (Chip8.new Mode.Chip8) (decode 0x6005) idleKB 0
    (ExecResult.ok Actions.None)
    { Chip8.new Mode.Chip8 with registers := upd (Chip8.new Mode.Chip8).registers 0 5 }
    (by rfl)

/-- Counterexample to claim C1 as stated: with `I = 4095`, the BCD store
`0xF033` touches `memory[4097]`; the call produces no result at all (the
Rust code panics on the out-of-bounds index), not an error result — the
match arm writes `self.memory[self.index_register as usize + 2]` with no
bounds check, so no `Err` value is ever constructed. -/
theorem execute_oob_no_error_result_cex :
    ({ Chip8.new Mode.Chip8 with index_register := 4095 }).execute
      (decode 0xF033) idleKB 0 = Option.none := by
  rfl

/-- Claim C1 (amended): for every machine state and every instruction whose
execution touches memory out of range through the index register (sprite
draw `0xD` with `I + n > 4096`, BCD store `0xF/0x33` with `I + 2 > 4095`,
register-block store `0xF/0x55` or load `0xF/0x65` with `I + x > 4095`),
`execute` terminates abnormally — the out-of-bounds array index panics and
no result is returned — rather than silently truncating or wrapping the
access or returning a recoverable value. -/
theorem execute_oob_index_access_panics (s : Chip8) (op : Instruction)
    (kb : KeyboardState) (rnd : Nat)
    (h : (op.instruction = 0xD ∧ 4096 < s.index_register + op.n) ∨
         (op.instruction = 0xF ∧ op.nn = 0x33 ∧ 4095 < s.index_register + 2) ∨
         (op.instruction = 0xF ∧ (op.nn = 0x55 ∨ op.nn = 0x65) ∧
            4095 < s.index_register + op.x)) :
    s.execute op kb rnd = Option.none := by
  rcases h with ⟨h1, h2⟩ | ⟨h1, h2, h3⟩ | ⟨h1, h2, h3⟩
  · unfold Chip8.execute
    rw [h1]
    simp only
    rw [if_neg (by omega)]
  · unfold Chip8.execute
    rw [h1, h2]
    simp only
    rw [if_neg (by omega)]
  · rcases h2 with h2 | h2 <;>
      (unfold Chip8.execute; rw [h1, h2]; simp only; rw [if_neg (by omega)])

/-- Witness for C1 (amended) at a concrete input: sprite draw `0xD011`
with `I = 4096`. -/
theorem execute_oob_index_access_panics_witness :
    ({ Chip8.new Mode.Chip8 with index_register := 4096 }).execute
      (decode 0xD011) idleKB 0 = Option.none :=
  execute_oob_index_access_panics
    { Chip8.new Mode.Chip8 with index_register := 4096 } (decode 0xD011) idleKB 0
    (Or.inl ⟨by decide, by decide⟩)

/-- Counterexample to claim C2 as stated: with `stack_pointer = 15`,
executing the call `0x2200` is not a silently-ignored no-op — the code
increments the stack pointer to 16 and writes `stack[16]`, an out-of-bounds
index on the 16-entry stack, so the call panics and produces no result
(neither an unchanged state nor an `Ok` value). -/
theorem call_full_stack_noop_cex :
    ({ Chip8.new Mode.Chip8 with stack_pointer := 15 }).execute
      (decode 0x2200) idleKB 0 = Option.none := by
  rfl

/-- Claim C2 (amended): for every machine state with `stack_pointer = 15`
(stack already holding 16 return addresses), executing a call `0x2NNN`
terminates abnormally: the unguarded `stack[stack_pointer as usize]` write
goes out of bounds and panics, so no push occurs and no state is returned.
(Only the return `0x00EE` on an empty stack is a silently-ignored no-op;
the call path has no such guard.) -/
theorem call_on_full_stack_panics (s : Chip8) (op : Instruction)
    (kb : KeyboardState) (rnd : Nat)
    (h1 : op.instruction = 0x2) (h2 : s.stack_pointer = 15) :
    s.execute op kb rnd = Option.none := by
  unfold Chip8.execute
  rw [h1]
  simp only
  rw [if_neg (by omega), if_neg (by omega)]

/-- Witness for C2 (amended) at a concrete input. -/
theorem call_on_full_stack_panics_witness :
    ({ Chip8.new Mode.Chip8 with stack_pointer := 15 }).execute
      (decode 0x2ABC) idleKB 0 = Option.none :=
  call_on_full_stack_panics { Chip8.new Mode.Chip8 with stack_pointer := 15 }
    (decode 0x2ABC) idleKB 0 (by decide) (by decide)

/-- A freshly constructed machine loaded with the two-byte program
`0x10 0x00`, i.e. the single instruction `0x1000`: jump to address 0. -/
def jumpZeroMachine : Chip8 := (Chip8.new Mode.Chip8).load [0x10, 0x00]

/-- Counterexample to claim C3 as stated: one fetch+execute cycle from the
freshly constructed (and loaded) machine whose first instruction is
`0x1000` leaves the program counter at 0, which is outside
`[0x200, 0xFFE]` — the jump opcode stores `nnn` into the program counter
with no range check. -/
theorem pc_range_invariant_cex :
    jumpZeroMachine.pcAfterCycle idleKB 0 = some 0 ∧ ¬ 0x200 ≤ (0 : Nat) := by
  exact ⟨by rfl, by decide⟩

/-- Claim C3 (amended): the program counter is not confined to
`[0x200, 0xFFE]`: the jump `0x1NNN` sets it to exactly `nnn`, whatever that
value is (no clamping and no range check), so a jump with `nnn < 0x200`
places the program counter below the claimed range. -/
theorem jump_sets_pc_exactly (s : Chip8) (op : Instruction) (kb : KeyboardState)
    (rnd : Nat) (h : op.instruction = 0x1) :
    s.execute op kb rnd =
      some (ExecResult.ok Actions.None, { s with program_counter := op.nnn }) := by
  unfold Chip8.execute
  rw [h]

/-- Witness for C3 (amended) at a concrete input: `0x1000` on a fresh
machine sets the program counter to `(decode 0x1000).nnn = 0`. -/
theorem jump_sets_pc_exactly_witness :
    (Chip8.new Mode.Chip8).execute (decode 0x1000) idleKB 0 =
      some (ExecResult.ok Actions.None,
        { Chip8.new Mode.Chip8 with program_counter := (decode 0x1000).nnn }) ∧
      (decode 0x1000).nnn = 0 :=
  ⟨jump_sets_pc_exactly (Chip8.new Mode.Chip8) (decode 0x1000) idleKB 0 (by decide),
   by decide⟩

/-- Claim C4: for the shift-right instruction `0x8XY6` (with `Vx`, `Vy`,
`VF` three distinct registers): under the Legacy variant (`Mode.Chip8`),
`Vx` is first assigned `Vy`, so the executed state has `Vx = Vy / 2` (that
value shifted right by one) and `VF` equal to the low bit of `Vy`; under
the Modern variant (`Mode.Chip48`), `Vx`'s own prior value is shifted, with
`VF` its pre-shift low bit; `Vy` is unchanged in both variants. -/
theorem shr_variant_semantics (s : Chip8) (op : Instruction) (kb : KeyboardState)
    (rnd : Nat) (hi : op.instruction = 0x8) (hn : op.n = 0x6)
    (hxF : op.x ≠ 0xF) (hyF : op.y ≠ 0xF) (hxy : op.x ≠ op.y) :
    ∃ s', s.execute op kb rnd = some (ExecResult.ok Actions.None, s') ∧
      s'.registers op.y = s.registers op.y ∧
      (s.mode = Mode.Chip8 →
        s'.registers op.x = s.registers op.y / 2 ∧
        s'.registers 0xF = s.registers op.y % 2) ∧
      (s.mode = Mode.Chip48 →
        s'.registers op.x = s.registers op.x / 2 ∧
        s'.registers 0xF = s.registers op.x % 2) := by
  unfold Chip8.execute
  rw [hi, hn]
  simp only
  refine ⟨_, rfl, ?_, ?_, ?_⟩
  · rcases hm : s.mode <;>
      simp [hm, upd, hxF, hyF, hxy, Ne.symm hxy]
  · intro hm
    simp [hm, upd, hxF, hyF, hxy, Ne.symm hxy, Nat.shiftRight_one, Nat.and_one_is_mod]
  · intro hm
    simp [hm, upd, hxF, hyF, hxy, Ne.symm hxy, Nat.shiftRight_one, Nat.and_one_is_mod]

/-- Concrete state for the C4 witness: `V0 = 0x01`, `V1 = 0x05`, Legacy
variant. -/
def shrState : Chip8 :=
  { Chip8.new Mode.Chip8 with registers := upd (upd (fun _ => 0) 0 1) 1 5 }

/-- Witness for C4 at the spec's own test vector: `0x8016` with `V0 = 0x01`,
`V1 = 0x05` under the Legacy variant (executed state ends with `V0 = 0x02`,
`VF = 1`, as `5 / 2 = 2` and `5 % 2 = 1`). -/
theorem shr_variant_semantics_witness :
    ∃ s', shrState.execute (decode 0x8016) idleKB 0 =
        some (ExecResult.ok Actions.None, s') ∧
      s'.registers (decode 0x8016).y = shrState.registers (decode 0x8016).y ∧
      (shrState.mode = Mode.Chip8 →
        s'.registers (decode 0x8016).x = shrState.registers (decode 0x8016).y / 2 ∧
        s'.registers 0xF = shrState.registers (decode 0x8016).y % 2) ∧
      (shrState.mode = Mode.Chip48 →
        s'.registers (decode 0x8016).x = shrState.registers (decode 0x8016).x / 2 ∧
        s'.registers 0xF = shrState.registers (decode 0x8016).x % 2) :=
  shr_variant_semantics shrState (decode 0x8016) idleKB 0
    (by decide) (by decide) (by decide) (by decide) (by decide)

/-- Claim C7: the wait-for-key instruction `0xF/0x0A` suspends without
advancing: when the opcode at the current program counter decodes to
`0xF/0x0A`, a full fetch-then-execute cycle with no pressed key reported
leaves the program counter exactly unchanged (fetch advances by 2, execute
rewinds by 2, so the same instruction is re-fetched next cycle), while a
cycle whose keyboard snapshot reports a pressed key `k` advances the
program counter by exactly 2 and stores `k` into `Vx`. -/
theorem key_wait_cycle (s : Chip8) (kb : KeyboardState) (rnd : Nat) (op : Instruction)
    (hpc : s.program_counter + 1 ≤ 4095)
    (hop : op = decode ((s.memory s.program_counter) <<< 8 |||
      s.memory (s.program_counter + 1)))
    (hi : op.instruction = 0xF) (hnn : op.nn = 0x0A) :
    (kb.pressed_key = Option.none →
      ∃ s', s.cycle kb rnd = some (ExecResult.ok Actions.None, s') ∧
        s'.program_counter = s.program_counter) ∧
    (∀ k, kb.pressed_key = some k →
      ∃ s', s.cycle kb rnd = some (ExecResult.ok Actions.None, s') ∧
        s'.program_counter = s.program_counter + 2 ∧
        s'.registers op.x = k) := by
  have hf : s.fetch = some ((s.memory s.program_counter) <<< 8 |||
      s.memory (s.program_counter + 1),
      { s with program_counter := s.program_counter + 2 }) := by
    unfold Chip8.fetch
    rw [if_pos (by omega)]
  unfold Chip8.cycle
  rw [hf]
  simp only
  rw [← hop]
  unfold Chip8.execute
  rw [hi, hnn]
  simp only
  constructor
  · intro hk
    rw [hk]
    simp only
    rw [if_pos (by omega)]
    refine ⟨_, rfl, ?_⟩
    simp only
    omega
  · intro k hk
    rw [hk]
    simp only
    exact ⟨_, rfl, by simp only, by simp [upd]⟩

/-- Machine for the C7 witness: a fresh machine loaded with the two-byte
program `0xF0 0x0A` (wait for key, store into `V0`). -/
def keyWaitMachine : Chip8 := (Chip8.new Mode.Chip8).load [0xF0, 0x0A]

/-- Witness for C7 at a concrete input: with no key the cycle leaves the
program counter at 0x200; with key 7 pressed it advances to 0x202 and
stores 7 in `V0`. -/
theorem key_wait_cycle_witness :
    ((Option.none : Option Nat) = Option.none →
      ∃ s', keyWaitMachine.cycle idleKB 0 = some (ExecResult.ok Actions.None, s') ∧
        s'.program_counter = keyWaitMachine.program_counter) ∧
    (∀ k, (Option.none : Option Nat) = some k →
      ∃ s', keyWaitMachine.cycle idleKB 0 = some (ExecResult.ok Actions.None, s') ∧
        s'.program_counter = keyWaitMachine.program_counter + 2 ∧
        s'.registers (decode 0xF00A).x = k) :=
  key_wait_cycle keyWaitMachine idleKB 0 (decode 0xF00A)
    (by decide) (by rfl) (by decide) (by decide)

theorem storeRegs_get (mem regs : Nat → Nat) (base : Nat) :
    ∀ x j, j ≤ x → storeRegs mem regs base x (base + j) = regs j := by
  intro x
  induction x with
  | zero =>
    intro j hj
    have hj0 : j = 0 := by omega
    subst hj0
    simp [storeRegs, upd]
  | succ n ih =>
    intro j hj
    by_cases hj2 : j = n + 1
    · subst hj2
      simp [storeRegs, upd]
    · rw [storeRegs, upd_ne _ _ _ _ (by omega)]
      exact ih j (by omega)

theorem loadRegs_get (regs mem : Nat → Nat) (base : Nat) :
    ∀ x j, j ≤ x → loadRegs regs mem base x j = mem (base + j) := by
  intro x
  induction x with
  | zero =>
    intro j hj
    have hj0 : j = 0 := by omega
    subst hj0
    simp [loadRegs, upd]
  | succ n ih =>
    intro j hj
    by_cases hj2 : j = n + 1
    · subst hj2
      simp [loadRegs, upd]
    · rw [loadRegs, upd_ne _ _ _ _ (by omega)]
      exact ih j (by omega)

/-- Claim C9: for every machine state with `I + x ≤ 4095`, executing
`0xFX55` (store `V0..Vx` at `I`) and then executing `0xFX65` reading from
the same `I` value the store wrote to restores the original values of
`V0..Vx`; under the Legacy variant (`Mode.Chip8`) each of the two
operations advances `I` by `x + 1` afterward, while under the Modern
variant (`Mode.Chip48`) `I` is unchanged by both. -/
theorem store_load_roundtrip (s : Chip8) (opS opL : Instruction)
    (kb : KeyboardState) (rnd : Nat)
    (hiS : opS.instruction = 0xF) (hnnS : opS.nn = 0x55)
    (hiL : opL.instruction = 0xF) (hnnL : opL.nn = 0x65)
    (hx : opL.x = opS.x)
    (hb : s.index_register + opS.x ≤ 4095) :
    ∃ s1, s.execute opS kb rnd = some (ExecResult.ok Actions.None, s1) ∧
      ∃ s2, ({ s1 with index_register := s.index_register }).execute opL kb rnd =
          some (ExecResult.ok Actions.None, s2) ∧
        (∀ j, j ≤ opS.x → s2.registers j = s.registers j) ∧
        (s.mode = Mode.Chip8 →
          s1.index_register = s.index_register + opS.x + 1 ∧
          s2.index_register = s.index_register + opS.x + 1) ∧
        (s.mode = Mode.Chip48 →
          s1.index_register = s.index_register ∧
          s2.index_register = s.index_register) := by
  have hbL : s.index_register + opL.x ≤ 4095 := by rw [hx]; exact hb
  have hstore : s.execute opS kb rnd =
      some (ExecResult.ok Actions.None,
        { s with memory := storeRegs s.memory s.registers s.index_register opS.x
                 index_register :=
                   match s.mode with
                   | Mode.Chip8 => s.index_register + opS.x + 1
                   | Mode.Chip48 => s.index_register }) := by
    unfold Chip8.execute
    rw [hiS, hnnS]
    simp only
    rw [if_pos hb]
    rcases s.mode <;> rfl
  refine ⟨_, hstore, ?_⟩
  unfold Chip8.execute
  rw [hiL, hnnL]
  simp only
  rw [if_pos hbL]
  rcases hm : s.mode <;> simp only
  · refine ⟨_, rfl, ?_, ?_, ?_⟩
    · intro j hj
      simp only
      rw [loadRegs_get _ _ _ _ _ (by omega),
        storeRegs_get _ _ _ _ _ (by omega)]
    · intro _
      simp [hm, hx]
    · intro hcontra
      exact absurd hcontra (by decide)
  · refine ⟨_, rfl, ?_, ?_, ?_⟩
    · intro j hj
      simp only
      rw [loadRegs_get _ _ _ _ _ (by omega),
        storeRegs_get _ _ _ _ _ (by omega)]
    · intro hcontra
      exact absurd hcontra (by decide)
    · intro _
      simp [hm, hx]

/-- Concrete state for the C9 witness: `V0 = 7`, `V1 = 8`, `V2 = 9`,
`I = 0x500`, Legacy variant. -/
def roundtripState : Chip8 :=
  { Chip8.new Mode.Chip8 with
      registers := upd (upd (upd (fun _ => 0) 0 7) 1 8) 2 9
      index_register := 0x500 }

/-- Witness for C9 at a concrete input: `0xF255` then `0xF265` with
`V0..V2 = 7, 8, 9` and `I = 0x500` under the Legacy variant. -/
theorem store_load_roundtrip_witness :
    ∃ s1, roundtripState.execute (decode 0xF255) idleKB 0 =
        some (ExecResult.ok Actions.None, s1) ∧
      ∃ s2, ({ s1 with index_register := roundtripState.index_register }).execute
            (decode 0xF265) idleKB 0 = some (ExecResult.ok Actions.None, s2) ∧
        (∀ j, j ≤ (decode 0xF255).x → s2.registers j = roundtripState.registers j) ∧
        (roundtripState.mode = Mode.Chip8 →
          s1.index_register = roundtripState.index_register + (decode 0xF255).x + 1 ∧
          s2.index_register = roundtripState.index_register + (decode 0xF255).x + 1) ∧
        (roundtripState.mode = Mode.Chip48 →
          s1.index_register = roundtripState.index_register ∧
          s2.index_register = roundtripState.index_register) :=
  store_load_roundtrip roundtripState (decode 0xF255) (decode 0xF265) idleKB 0
    (by decide) (by decide) (by decide) (by decide) (by decide) (by decide)

/-- Claim C8: for every fetch-then-execute cycle that terminates normally,
the opcode classes `0x3`–`0x9`, `0xA`, `0xC` advance the program counter by
exactly 2, except that the skip instructions (`0x3`, `0x4`, `0x5`, `0x9`,
and the `0xE` key skips) advance it by 4 when their condition holds, and
`0x1`, `0x2`, `0xB` set it absolutely to the target address. -/
theorem cycle_pc_stepping (s : Chip8) (kb : KeyboardState) (rnd : Nat)
    (r : ExecResult) (s' : Chip8) (op : Instruction)
    (hop : op = decode ((s.memory s.program_counter) <<< 8 |||
      s.memory (s.program_counter + 1)))
    (h : s.cycle kb rnd = some (r, s')) :
    (op.instruction = 0x1 → s'.program_counter = op.nnn) ∧
    (op.instruction = 0x2 → s'.program_counter = op.nnn) ∧
    (op.instruction = 0xB →
      (s.mode = Mode.Chip8 → s'.program_counter = op.nnn + s.registers 0) ∧
      (s.mode = Mode.Chip48 → s'.program_counter = op.nnn + s.registers op.x)) ∧
    (op.instruction = 0x3 →
      s'.program_counter = s.program_counter +
        (if s.registers op.x = op.nn then 4 else 2)) ∧
    (op.instruction = 0x4 →
      s'.program_counter = s.program_counter +
        (if s.registers op.x = op.nn then 2 else 4)) ∧
    (op.instruction = 0x5 →
      s'.program_counter = s.program_counter +
        (if s.registers op.x = s.registers op.y then 4 else 2)) ∧
    (op.instruction = 0x9 →
      s'.program_counter = s.program_counter +
        (if s.registers op.x = s.registers op.y then 2 else 4)) ∧
    ((op.instruction = 0x6 ∨ op.instruction = 0x7 ∨ op.instruction = 0x8 ∨
        op.instruction = 0xA ∨ op.instruction = 0xC) →
      s'.program_counter = s.program_counter + 2) ∧
    (op.instruction = 0xE → op.nn = 0x9E →
      s'.program_counter = s.program_counter +
        (if kb.keys_pressed (s.registers op.x) then 4 else 2)) ∧
    (op.instruction = 0xE → op.nn = 0xA1 →
      s'.program_counter = s.program_counter +
        (if kb.keys_pressed (s.registers op.x) then 2 else 4)) := by
  by_cases hpc : s.program_counter + 1 ≤ 4095
  case neg =>
    exfalso
    unfold Chip8.cycle Chip8.fetch at h
    rw [if_neg hpc] at h
    simp at h
  have hf : s.fetch = some ((s.memory s.program_counter) <<< 8 |||
      s.memory (s.program_counter + 1),
      { s with program_counter := s.program_counter + 2 }) := by
    unfold Chip8.fetch
    rw [if_pos hpc]
  unfold Chip8.cycle at h
  rw [hf] at h
  simp only at h
  rw [← hop] at h
  refine ⟨?_, ?_, ?_, ?_, ?_, ?_, ?_, ?_, ?_, ?_⟩
  · intro hi
    unfold Chip8.execute at h
    rw [hi] at h
    simp only [Option.some.injEq, Prod.mk.injEq] at h
    obtain ⟨-, h2⟩ := h
    subst h2
    rfl
  · intro hi
    unfold Chip8.execute at h
    rw [hi] at h
    simp only at h
    repeat' split at h
    all_goals try (exfalso; exact Option.noConfusion h)
    injection h with hx
    injection hx with h1 h2
    subst h2
    rfl
  · intro hi
    unfold Chip8.execute at h
    rw [hi] at h
    rcases hmode : s.mode
    all_goals rw [hmode] at h
    all_goals simp only at h
    all_goals injection h with hx
    all_goals injection hx with h1 h2
    all_goals subst h2
    all_goals refine ⟨?_, ?_⟩ <;> intro hmm
    all_goals first
      | rfl
      | exact absurd hmm (by decide)
  · intro hi
    unfold Chip8.execute at h
    rw [hi] at h
    simp only at h
    split at h
    next hcond =>
      injection h with hx
      injection hx with h1 h2
      subst h2
      rw [if_pos (show s.registers op.x = op.nn from hcond)]
    next hcond =>
      injection h with hx
      injection hx with h1 h2
      subst h2
      rw [if_neg (show ¬ s.registers op.x = op.nn from hcond)]
  · intro hi
    unfold Chip8.execute at h
    rw [hi] at h
    simp only at h
    split at h
    next hcond =>
      injection h with hx
      injection hx with h1 h2
      subst h2
      rw [if_neg (show ¬ s.registers op.x = op.nn from hcond)]
    next hcond =>
      injection h with hx
      injection hx with h1 h2
      subst h2
      rw [if_pos (show s.registers op.x = op.nn from not_not.mp hcond)]
  · intro hi
    unfold Chip8.execute at h
    rw [hi] at h
    simp only at h
    split at h
    next hcond =>
      injection h with hx
      injection hx with h1 h2
      subst h2
      rw [if_pos (show s.registers op.x = s.registers op.y from hcond)]
    next hcond =>
      injection h with hx
      injection hx with h1 h2
      subst h2
      rw [if_neg (show ¬ s.registers op.x = s.registers op.y from hcond)]
  · intro hi
    unfold Chip8.execute at h
    rw [hi] at h
    simp only at h
    split at h
    next hcond =>
      injection h with hx
      injection hx with h1 h2
      subst h2
      rw [if_neg (show ¬ s.registers op.x = s.registers op.y from hcond)]
    next hcond =>
      injection h with hx
      injection hx with h1 h2
      subst h2
      rw [if_pos (show s.registers op.x = s.registers op.y from not_not.mp hcond)]
  · intro hi
    rcases hi with hi | hi | hi | hi | hi
    all_goals unfold Chip8.execute at h
    all_goals rw [hi] at h
    all_goals simp only at h
    all_goals repeat' split at h
    all_goals injection h with hx
    all_goals injection hx with h1 h2
    all_goals subst h2
    all_goals rfl
  · intro hi hnn
    unfold Chip8.execute at h
    rw [hi, hnn] at h
    simp only at h
    split at h
    next =>
      split at h
      next hcond =>
        injection h with hx
        injection hx with h1 h2
        subst h2
        rw [if_pos (show kb.keys_pressed (s.registers op.x) = true from hcond)]
      next hcond =>
        injection h with hx
        injection hx with h1 h2
        subst h2
        rw [if_neg (show ¬ kb.keys_pressed (s.registers op.x) = true from hcond)]
    next => exact absurd h (by simp)
  · intro hi hnn
    unfold Chip8.execute at h
    rw [hi, hnn] at h
    simp only at h
    split at h
    next =>
      split at h
      next hcond =>
        injection h with hx
        injection hx with h1 h2
        subst h2
        rw [if_pos (show kb.keys_pressed (s.registers op.x) = true from hcond)]
      next hcond =>
        injection h with hx
        injection hx with h1 h2
        subst h2
        rw [if_neg (show ¬ kb.keys_pressed (s.registers op.x) = true from hcond)]
    next => exact absurd h (by simp)

/-- Machine for the C8 witness: a fresh machine loaded with `0x6A 0x07`
(set `VA := 7`). -/
def stepMachine : Chip8 := (Chip8.new Mode.Chip8).load [0x6A, 0x07]

/-- The state after one cycle of `stepMachine`. -/
def stepMachineNext : Chip8 :=
  { stepMachine with
      program_counter := 0x202
      registers := upd stepMachine.registers 0xA 0x07 }

/-- Witness for C8 at a concrete input: executing the class-`0x6` opcode
`0x6A07` advances the program counter from 0x200 to 0x202. -/
theorem cycle_pc_stepping_witness :
    stepMachine.cycle idleKB 0 = some (ExecResult.ok Actions.None, stepMachineNext) ∧
    stepMachineNext.program_counter = stepMachine.program_counter + 2 := by
  have h : stepMachine.cycle idleKB 0 =
      some (ExecResult.ok Actions.None, stepMachineNext) := by rfl
  refine ⟨h, ?_⟩
  have hc := cycle_pc_stepping stepMachine idleKB 0 (ExecResult.ok Actions.None)
    stepMachineNext (decode 0x6A07) (by rfl) h
  exact hc.2.2.2.2.2.2.2.1 (Or.inl (by decide))

theorem upd2_self (d : Nat → Nat → Nat) (r c v : Nat) : upd2 d r c v r c = v := by
  simp [upd2]

theorem upd2_ne (d : Nat → Nat → Nat) (r c v r2 c2 : Nat)
    (h : ¬ (r2 = r ∧ c2 = c)) : upd2 d r c v r2 c2 = d r2 c2 := by
  simp only [upd2, if_neg h]

/-- Pointwise description of the inner sprite-draw column loop: starting at
pixel `i` with `rem` iterations left, cell `(r, c)` is toggled exactly when
it is on the target row, in the processed column span, not past column 63,
and the corresponding sprite bit is set. -/
theorem drawCols_display (row x0 byte : Nat) :
    ∀ rem i d vf r c,
      ((drawCols row x0 byte i rem d vf).1) r c =
        if r = row ∧ x0 + i ≤ c ∧ c < x0 + i + rem ∧ c ≤ 63 ∧
            (byte >>> (7 - (c - x0))) &&& 1 = 1
        then d r c ^^^ 1 else d r c := by
  intro rem
  induction rem with
  | zero =>
    intro i d vf r c
    rw [drawCols, if_neg (by rintro ⟨-, h1, h2, -⟩; omega)]
  | succ n ih =>
    intro i d vf r c
    rw [drawCols]
    by_cases hbreak : x0 + i > 63
    · rw [if_pos hbreak, if_neg (by rintro ⟨-, h1, -, h2, -⟩; omega)]
    · rw [if_neg hbreak]
      by_cases hpix : (byte >>> (7 - i)) &&& 1 = 1
      · rw [if_pos hpix, ih]
        by_cases hr : r = row
        · subst hr
          by_cases hc1 : c = x0 + i
          · subst hc1
            rw [if_neg (by rintro ⟨-, h1, -⟩; omega),
              if_pos ⟨rfl, Nat.le_refl _, by omega, by omega,
                by rw [Nat.add_sub_cancel_left]; exact hpix⟩,
              upd2_self]
          · rw [upd2_ne _ _ _ _ _ _ (by rintro ⟨-, hc⟩; exact hc1 hc)]
            by_cases hc2 : x0 + i ≤ c ∧ c < x0 + i + (n + 1) ∧ c ≤ 63 ∧
                (byte >>> (7 - (c - x0))) &&& 1 = 1
            · rw [if_pos ⟨rfl, by omega, by omega, hc2.2.2.1, hc2.2.2.2⟩,
                if_pos ⟨rfl, hc2.1, hc2.2.1, hc2.2.2.1, hc2.2.2.2⟩]
            · rw [if_neg (by rintro ⟨-, h1, h2, h3, h4⟩; exact hc2 ⟨by omega, by omega, h3, h4⟩),
                if_neg (by rintro ⟨-, h1, h2, h3, h4⟩; exact hc2 ⟨h1, by omega, h3, h4⟩)]
        · rw [upd2_ne _ _ _ _ _ _ (by rintro ⟨hr2, -⟩; exact hr hr2),
            if_neg (by rintro ⟨hr2, -⟩; exact hr hr2),
            if_neg (by rintro ⟨hr2, -⟩; exact hr hr2)]
      · rw [if_neg hpix, ih]
        by_cases hr : r = row
        · subst hr
          by_cases hc1 : c = x0 + i
          · subst hc1
            rw [if_neg (by rintro ⟨-, h1, -⟩; omega),
              if_neg (by rintro ⟨-, -, -, -, hbit⟩; rw [Nat.add_sub_cancel_left] at hbit; exact hpix hbit)]
          · by_cases hc2 : x0 + i ≤ c ∧ c < x0 + i + (n + 1) ∧ c ≤ 63 ∧
                (byte >>> (7 - (c - x0))) &&& 1 = 1
            · rw [if_pos ⟨rfl, by omega, by omega, hc2.2.2.1, hc2.2.2.2⟩,
                if_pos ⟨rfl, hc2.1, hc2.2.1, hc2.2.2.1, hc2.2.2.2⟩]
            · rw [if_neg (by rintro ⟨-, h1, h2, h3, h4⟩; exact hc2 ⟨by omega, by omega, h3, h4⟩),
                if_neg (by rintro ⟨-, h1, h2, h3, h4⟩; exact hc2 ⟨h1, by omega, h3, h4⟩)]
        · rw [if_neg (by rintro ⟨hr2, -⟩; exact hr hr2),
            if_neg (by rintro ⟨hr2, -⟩; exact hr hr2)]

/-- Collision-flag description of the inner sprite-draw column loop: the
flag becomes 1 exactly when some processed pixel is both set in the sprite
byte and already lit on the display (each iteration reads its cell before
toggling it, and distinct iterations touch distinct columns). -/
theorem drawCols_vf (row x0 byte : Nat) :
    ∀ rem i d vf,
      ((∃ k, i ≤ k ∧ k < i + rem ∧ x0 + k ≤ 63 ∧ (byte >>> (7 - k)) &&& 1 = 1 ∧
          d row (x0 + k) = 1) → (drawCols row x0 byte i rem d vf).2 = 1) ∧
      ((¬ ∃ k, i ≤ k ∧ k < i + rem ∧ x0 + k ≤ 63 ∧ (byte >>> (7 - k)) &&& 1 = 1 ∧
          d row (x0 + k) = 1) → (drawCols row x0 byte i rem d vf).2 = vf) := by
  intro rem
  induction rem with
  | zero =>
    intro i d vf
    constructor
    · rintro ⟨k, hk1, hk2, -⟩
      omega
    · intro hno
      rw [drawCols]
  | succ n ih =>
    intro i d vf
    rw [drawCols]
    by_cases hbreak : x0 + i > 63
    · rw [if_pos hbreak]
      constructor
      · rintro ⟨k, hk1, hk2, hk3, -⟩
        omega
      · intro hno
        rfl
    · rw [if_neg hbreak]
      by_cases hpix : (byte >>> (7 - i)) &&& 1 = 1
      · rw [if_pos hpix]
        by_cases hcol : d row (x0 + i) = 1
        · rw [if_pos hcol]
          constructor
          · intro hhit
            by_cases htail : ∃ k, i + 1 ≤ k ∧ k < (i + 1) + n ∧ x0 + k ≤ 63 ∧
                (byte >>> (7 - k)) &&& 1 = 1 ∧
                (upd2 d row (x0 + i) (d row (x0 + i) ^^^ 1)) row (x0 + k) = 1
            · exact (ih (i + 1) _ 1).1 htail
            · exact (ih (i + 1) _ 1).2 htail
          · intro hno
            exact absurd ⟨i, Nat.le_refl _, by omega, by omega, hpix, hcol⟩ hno
        · rw [if_neg hcol]
          constructor
          · rintro ⟨k, hk1, hk2, hk3, hk4, hk5⟩
            have hki : k ≠ i := by
              rintro rfl
              exact hcol hk5
            refine (ih (i + 1) _ vf).1 ⟨k, by omega, by omega, hk3, hk4, ?_⟩
            rw [upd2_ne _ _ _ _ _ _ (by rintro ⟨-, hc⟩; exact hki (by omega))]
            exact hk5
          · intro hno
            refine (ih (i + 1) _ vf).2 ?_
            rintro ⟨k, hk1, hk2, hk3, hk4, hk5⟩
            rw [upd2_ne _ _ _ _ _ _ (by rintro ⟨-, hc⟩; omega)] at hk5
            exact hno ⟨k, by omega, by omega, hk3, hk4, hk5⟩
      · rw [if_neg hpix]
        constructor
        · rintro ⟨k, hk1, hk2, hk3, hk4, hk5⟩
          have hki : k ≠ i := by
            rintro rfl
            exact hpix hk4
          exact (ih (i + 1) d vf).1 ⟨k, by omega, by omega, hk3, hk4, hk5⟩
        · intro hno
          refine (ih (i + 1) d vf).2 ?_
          rintro ⟨k, hk1, hk2, hk3, hk4, hk5⟩
          exact hno ⟨k, by omega, by omega, hk3, hk4, hk5⟩

/-- Pointwise description of the sprite-draw row loop: starting at sprite
row `j` with `rem` rows left, cell `(r, c)` is toggled exactly when it lies
in the clipped sprite footprint (no wrapping past row 31 or column 63) and
the sprite bit for that cell is set. -/
theorem drawRows_display (mem : Nat → Nat) (idx x0 y0 : Nat) :
    ∀ rem j d vf r c,
      ((drawRows mem idx x0 y0 j rem d vf).1) r c =
        if y0 + j ≤ r ∧ r < y0 + j + rem ∧ r ≤ 31 ∧ x0 ≤ c ∧ c < x0 + 8 ∧ c ≤ 63 ∧
            (mem (idx + (r - y0)) >>> (7 - (c - x0))) &&& 1 = 1
        then d r c ^^^ 1 else d r c := by
  intro rem
  induction rem with
  | zero =>
    intro j d vf r c
    rw [drawRows, if_neg (by rintro ⟨h1, h2, -⟩; omega)]
  | succ n ih =>
    intro j d vf r c
    rw [drawRows]
    by_cases hbreak : y0 + j > 31
    · rw [if_pos hbreak, if_neg (by rintro ⟨h1, -, h2, -⟩; omega)]
    · rw [if_neg hbreak]
      simp only
      rw [ih, drawCols_display]
      by_cases hr : r = y0 + j
      · subst hr
        rw [if_neg (by rintro ⟨h1, -⟩; omega)]
        by_cases hcc : x0 ≤ c ∧ c < x0 + 8 ∧ c ≤ 63 ∧
            (mem (idx + j) >>> (7 - (c - x0))) &&& 1 = 1
        · rw [if_pos ⟨rfl, by omega, by omega, hcc.2.2.1, hcc.2.2.2⟩,
            if_pos ⟨Nat.le_refl _, by omega, by omega, hcc.1, hcc.2.1, hcc.2.2.1,
              by rw [Nat.add_sub_cancel_left]; exact hcc.2.2.2⟩]
        · rw [if_neg (by rintro ⟨-, h1, h2, h3, h4⟩; exact hcc ⟨by omega, by omega, h3, h4⟩),
            if_neg (by rintro ⟨-, -, -, h1, h2, h3, h4⟩; rw [Nat.add_sub_cancel_left] at h4; exact hcc ⟨h1, h2, h3, h4⟩)]
      · have hinner : ¬ (r = y0 + j ∧ x0 + 0 ≤ c ∧ c < x0 + 0 + 8 ∧ c ≤ 63 ∧
            (mem (idx + j) >>> (7 - (c - x0))) &&& 1 = 1) := by
          rintro ⟨hr2, -⟩
          exact hr hr2
        rw [if_neg hinner]
        by_cases hC : y0 + j ≤ r ∧ r < y0 + j + (n + 1) ∧ r ≤ 31 ∧ x0 ≤ c ∧
            c < x0 + 8 ∧ c ≤ 63 ∧ (mem (idx + (r - y0)) >>> (7 - (c - x0))) &&& 1 = 1
        · have hC2 : y0 + (j + 1) ≤ r ∧ r < y0 + (j + 1) + n ∧ r ≤ 31 ∧ x0 ≤ c ∧
              c < x0 + 8 ∧ c ≤ 63 ∧ (mem (idx + (r - y0)) >>> (7 - (c - x0))) &&& 1 = 1 :=
            ⟨by omega, by omega, hC.2.2.1, hC.2.2.2.1, hC.2.2.2.2.1,
              hC.2.2.2.2.2.1, hC.2.2.2.2.2.2⟩
          rw [if_pos hC2, if_pos hC]
        · have hC2 : ¬ (y0 + (j + 1) ≤ r ∧ r < y0 + (j + 1) + n ∧ r ≤ 31 ∧ x0 ≤ c ∧
              c < x0 + 8 ∧ c ≤ 63 ∧ (mem (idx + (r - y0)) >>> (7 - (c - x0))) &&& 1 = 1) := by
            rintro ⟨h1, h2, h3, h4, h5, h6, h7⟩
            exact hC ⟨by omega, by omega, h3, h4, h5, h6, h7⟩
          rw [if_neg hC2, if_neg hC]

/-- Claim C5: for every sprite draw `0xDXYN` with `I + n` in bounds, the
anchor coordinates are wrapped — `x := Vx mod 64`, `y := Vy mod 32` — but
the sprite body is clipped, not wrapped, at the display edges: a cell
changes only inside the footprint rows `y ≤ r < y + n` with `r ≤ 31` and
columns `x ≤ c < x + 8` with `c ≤ 63` (so sprite rows landing past row 31
and columns past 63 are not drawn at all), and each footprint cell receives
exactly the XOR of its sprite bit — in particular a 4-row sprite drawn at
`y = 30` draws only rows 30 and 31. -/
theorem sprite_draw_clips (s : Chip8) (op : Instruction) (kb : KeyboardState)
    (rnd : Nat) (hi : op.instruction = 0xD)
    (hb : s.index_register + op.n ≤ 4096) :
    ∃ s', s.execute op kb rnd = some (ExecResult.ok Actions.Redraw, s') ∧
      (∀ r c, ¬ (s.registers op.y % 32 ≤ r ∧ r < s.registers op.y % 32 + op.n ∧
          r ≤ 31 ∧ s.registers op.x % 64 ≤ c ∧ c < s.registers op.x % 64 + 8 ∧
          c ≤ 63) → s'.display r c = s.display r c) ∧
      (∀ r c, s.registers op.y % 32 ≤ r → r < s.registers op.y % 32 + op.n →
          r ≤ 31 → s.registers op.x % 64 ≤ c → c < s.registers op.x % 64 + 8 →
          c ≤ 63 →
        s'.display r c = s.display r c ^^^
          ((s.memory (s.index_register + (r - s.registers op.y % 32)) >>>
            (7 - (c - s.registers op.x % 64))) &&& 1)) := by
  have hx : s.registers op.x &&& 63 = s.registers op.x % 64 :=
    Nat.and_pow_two_sub_one_eq_mod _ 6
  have hy : s.registers op.y &&& 31 = s.registers op.y % 32 :=
    Nat.and_pow_two_sub_one_eq_mod _ 5
  unfold Chip8.execute
  rw [hi]
  simp only
  rw [if_pos hb, hx, hy]
  refine ⟨_, rfl, ?_, ?_⟩
  · intro r c hno
    simp only
    rw [drawRows_display]
    rw [if_neg (by rintro ⟨h1, h2, h3, h4, h5, h6, -⟩; exact hno ⟨by omega, by omega, h3, h4, h5, h6⟩)]
  · intro r c h1 h2 h3 h4 h5 h6
    simp only
    rw [drawRows_display]
    by_cases hbit : (s.memory (s.index_register + (r - s.registers op.y % 32)) >>>
        (7 - (c - s.registers op.x % 64))) &&& 1 = 1
    · rw [if_pos ⟨by omega, by omega, h3, h4, h5, h6, hbit⟩, hbit]
    · have hbit0 : (s.memory (s.index_register + (r - s.registers op.y % 32)) >>>
          (7 - (c - s.registers op.x % 64))) &&& 1 = 0 := by
        have hm := Nat.and_one_is_mod (s.memory (s.index_register +
          (r - s.registers op.y % 32)) >>> (7 - (c - s.registers op.x % 64)))
        omega
      rw [if_neg (by rintro ⟨-, -, -, -, -, -, hb7⟩; exact hbit hb7), hbit0]
      simp

/-- Concrete state for the C5 witness: `V0 = 60`, `V1 = 30`, `I = 0x400`,
and four sprite rows of `0xFF` at `0x400..0x403`. -/
def clipState : Chip8 :=
  { Chip8.new Mode.Chip8 with
      memory := upd (upd (upd (upd (Chip8.new Mode.Chip8).memory
        0x400 0xFF) 0x401 0xFF) 0x402 0xFF) 0x403 0xFF
      registers := upd (upd (fun _ => 0) 0 60) 1 30
      index_register := 0x400 }

/-- Witness for C5 at the spec's clipping vector: `0xD014` (a 4-row sprite
at `x = 60`, `y = 30`) on `clipState`: only rows 30–31 and columns 60–63
can change, and each footprint cell is XORed with its sprite bit. -/
theorem sprite_draw_clips_witness :
    ∃ s', clipState.execute (decode 0xD014) idleKB 0 =
        some (ExecResult.ok Actions.Redraw, s') ∧
      (∀ r c, ¬ (clipState.registers (decode 0xD014).y % 32 ≤ r ∧
          r < clipState.registers (decode 0xD014).y % 32 + (decode 0xD014).n ∧
          r ≤ 31 ∧ clipState.registers (decode 0xD014).x % 64 ≤ c ∧
          c < clipState.registers (decode 0xD014).x % 64 + 8 ∧
          c ≤ 63) → s'.display r c = clipState.display r c) ∧
      (∀ r c, clipState.registers (decode 0xD014).y % 32 ≤ r →
          r < clipState.registers (decode 0xD014).y % 32 + (decode 0xD014).n →
          r ≤ 31 → clipState.registers (decode 0xD014).x % 64 ≤ c →
          c < clipState.registers (decode 0xD014).x % 64 + 8 →
          c ≤ 63 →
        s'.display r c = clipState.display r c ^^^
          ((clipState.memory (clipState.index_register +
              (r - clipState.registers (decode 0xD014).y % 32)) >>>
            (7 - (c - clipState.registers (decode 0xD014).x % 64))) &&& 1)) :=
  sprite_draw_clips clipState (decode 0xD014) idleKB 0 (by decide) (by decide)

/-- One `0xD` draw of a single `0xFF` sprite row whose eight columns are
all on-screen: every target pixel is XORed with 1, `VF` reports whether any
target pixel was lit beforehand, and all other machine components are
unchanged. -/
theorem drawFF_step (t : Chip8) (op : Instruction) (kb : KeyboardState) (rnd : Nat)
    (hi : op.instruction = 0xD) (hn : op.n = 1)
    (hmem : t.memory t.index_register = 0xFF)
    (hb : t.index_register + 1 ≤ 4096)
    (hxpos : t.registers op.x % 64 + 8 ≤ 64) :
    ∃ t', t.execute op kb rnd = some (ExecResult.ok Actions.Redraw, t') ∧
      t'.memory = t.memory ∧
      t'.index_register = t.index_register ∧
      t'.mode = t.mode ∧
      (∀ i, i ≠ 0xF → t'.registers i = t.registers i) ∧
      (∀ k, k < 8 → t'.display (t.registers op.y % 32) (t.registers op.x % 64 + k) =
        t.display (t.registers op.y % 32) (t.registers op.x % 64 + k) ^^^ 1) ∧
      ((∃ k, k < 8 ∧ t.display (t.registers op.y % 32) (t.registers op.x % 64 + k) = 1) →
        t'.registers 0xF = 1) ∧
      ((∀ k, k < 8 → t.display (t.registers op.y % 32) (t.registers op.x % 64 + k) ≠ 1) →
        t'.registers 0xF = 0) := by
  have hx : t.registers op.x &&& 63 = t.registers op.x % 64 :=
    Nat.and_pow_two_sub_one_eq_mod _ 6
  have hy : t.registers op.y &&& 31 = t.registers op.y % 32 :=
    Nat.and_pow_two_sub_one_eq_mod _ 5
  have hb' : t.index_register + op.n ≤ 4096 := by
    rw [hn]
    exact hb
  have hmem0 : t.memory (t.index_register + 0) = 0xFF := by
    simpa using hmem
  have hbitc : ∀ k, k < 8 →
      ((t.memory (t.index_register + 0)) >>>
        (7 - (t.registers op.x % 64 + k - t.registers op.x % 64))) &&& 1 = 1 := by
    intro k hk
    rw [hmem0, Nat.add_sub_cancel_left]
    interval_cases k <;> decide
  have hbitk : ∀ k, k < 8 →
      ((t.memory (t.index_register + 0)) >>> (7 - k)) &&& 1 = 1 := by
    intro k hk
    rw [hmem0]
    interval_cases k <;> decide
  unfold Chip8.execute
  rw [hi]
  simp only
  rw [if_pos hb', hx, hy, hn]
  have hred : drawRows t.memory t.index_register (t.registers op.x % 64)
      (t.registers op.y % 32) 0 1 t.display 0 =
      drawCols (t.registers op.y % 32 + 0) (t.registers op.x % 64)
        (t.memory (t.index_register + 0)) 0 8 t.display 0 := by
    rw [drawRows, if_neg (by omega)]
    simp only
    rw [drawRows]
  rw [hred]
  refine ⟨_, rfl, rfl, rfl, rfl, ?_, ?_, ?_, ?_⟩
  · intro i hi15
    simp only
    rw [upd_ne _ _ _ _ hi15]
  · intro k hk
    simp only
    rw [drawCols_display,
      if_pos ⟨by omega, by omega, by omega, by omega, hbitc k hk⟩]
  · rintro ⟨k, hk, hdisp⟩
    simp only
    rw [upd_self]
    exact (drawCols_vf _ _ _ 8 0 t.display 0).1
      ⟨k, by omega, by omega, by omega, hbitk k hk, hdisp⟩
  · intro hall
    simp only
    rw [upd_self]
    refine (drawCols_vf _ _ _ 8 0 t.display 0).2 ?_
    rintro ⟨k, hk1, hk2, hk3, hk4, hk5⟩
    exact hall k (by omega) hk5

/-- Claim C6: sprite drawing is an XOR blit with a collision flag: for
every in-bounds position (all eight target pixels on-screen) whose eight
target pixels are initially 0, executing a 1-row draw of the byte `0xFF`
sets those eight pixels to 1 with `VF = 0`, and executing the identical
draw a second time clears all eight pixels back to 0 and sets `VF = 1`
(self-collision). -/
theorem sprite_xor_self_collision (s : Chip8) (op : Instruction)
    (kb : KeyboardState) (rnd : Nat)
    (hi : op.instruction = 0xD) (hn : op.n = 1)
    (hxF : op.x ≠ 0xF) (hyF : op.y ≠ 0xF)
    (hmem : s.memory s.index_register = 0xFF)
    (hb : s.index_register + 1 ≤ 4096)
    (hxpos : s.registers op.x % 64 + 8 ≤ 64)
    (hzero : ∀ k, k < 8 →
      s.display (s.registers op.y % 32) (s.registers op.x % 64 + k) = 0) :
    ∃ s1, s.execute op kb rnd = some (ExecResult.ok Actions.Redraw, s1) ∧
      (∀ k, k < 8 →
        s1.display (s.registers op.y % 32) (s.registers op.x % 64 + k) = 1) ∧
      s1.registers 0xF = 0 ∧
      ∃ s2, s1.execute op kb rnd = some (ExecResult.ok Actions.Redraw, s2) ∧
        (∀ k, k < 8 →
          s2.display (s.registers op.y % 32) (s.registers op.x % 64 + k) = 0) ∧
        s2.registers 0xF = 1 := by
  obtain ⟨s1, he1, hm1, hi1, hmo1, hr1, hd1, hv1a, hv1b⟩ :=
    drawFF_step s op kb rnd hi hn hmem hb hxpos
  have hvf1 : s1.registers 0xF = 0 := by
    refine hv1b ?_
    intro k hk
    rw [hzero k hk]
    omega
  have hd1p : ∀ k, k < 8 →
      s1.display (s.registers op.y % 32) (s.registers op.x % 64 + k) = 1 := by
    intro k hk
    rw [hd1 k hk, hzero k hk]
    decide
  have hmem2 : s1.memory s1.index_register = 0xFF := by
    rw [hm1, hi1]
    exact hmem
  have hb2 : s1.index_register + 1 ≤ 4096 := by
    rw [hi1]
    exact hb
  have hxpos2 : s1.registers op.x % 64 + 8 ≤ 64 := by
    rw [hr1 op.x hxF]
    exact hxpos
  obtain ⟨s2, he2, hm2, hi2, hmo2, hr2, hd2, hv2a, hv2b⟩ :=
    drawFF_step s1 op kb rnd hi hn hmem2 hb2 hxpos2
  refine ⟨s1, he1, hd1p, hvf1, s2, he2, ?_, ?_⟩
  · intro k hk
    have hstep := hd2 k hk
    rw [hr1 op.x hxF, hr1 op.y hyF] at hstep
    rw [hstep, hd1p k hk]
    decide
  · refine hv2a ⟨0, by omega, ?_⟩
    rw [hr1 op.x hxF, hr1 op.y hyF]
    exact hd1p 0 (by omega)

/-- Concrete state for the C6 witness: a fresh machine with a single `0xFF`
sprite row at `I = 0x400`, drawing at `x = 0`, `y = 0`. -/
def xorState : Chip8 :=
  { Chip8.new Mode.Chip8 with
      memory := upd (Chip8.new Mode.Chip8).memory 0x400 0xFF
      index_register := 0x400 }

/-- Witness for C6 at a concrete input: drawing `0xD011` twice on
`xorState` first lights pixels (0,0)–(0,7) with `VF = 0`, then clears them
with `VF = 1`. -/
theorem sprite_xor_self_collision_witness :
    ∃ s1, xorState.execute (decode 0xD011) idleKB 0 =
        some (ExecResult.ok Actions.Redraw, s1) ∧
      (∀ k, k < 8 → s1.display (xorState.registers (decode 0xD011).y % 32)
          (xorState.registers (decode 0xD011).x % 64 + k) = 1) ∧
      s1.registers 0xF = 0 ∧
      ∃ s2, s1.execute (decode 0xD011) idleKB 0 =
          some (ExecResult.ok Actions.Redraw, s2) ∧
        (∀ k, k < 8 → s2.display (xorState.registers (decode 0xD011).y % 32)
            (xorState.registers (decode 0xD011).x % 64 + k) = 0) ∧
        s2.registers 0xF = 1 :=
  sprite_xor_self_collision xorState (decode 0xD011) idleKB 0
    (by decide) (by decide) (by decide) (by decide) (by decide) (by decide)
    (by decide) (by decide)

end CHIP8
